import Mathlib

/-!
Verification development for the gitmeup CLI (src/gitmeup/cli.py).

The pipeline is: gather git context, build a prompt, call a language
model, extract the first fenced bash block from the reply, parse it into
git commands, and print or execute them.

Embedding choices: Python strings are modelled as lists of characters
(`Str`), so that `strip`, `splitlines` and prefix tests are transparent
recursive functions; `splitlines` is modelled with the newline character
as the separator.  The process boundary (git subprocesses, the model
endpoint, execution of generated commands) is modelled by oracle
functions passed as parameters, and the effects of a run are recorded in
explicit traces: which commands were handed to the subprocess layer,
which lines were printed, and the process exit code.
-/

set_option autoImplicit false

namespace Gitmeup

/-- A Python string, modelled as its list of characters. -/
abbrev Str := List Char

/-- Build a `Str` from a Lean string literal. -/
def str (s : String) : Str := s.toList

/-- Python whitespace characters stripped by `str.strip()` (ASCII part). -/
def pySpace (c : Char) : Bool :=
  c = ' ' || c = '\t' || c = '\n' || c = '\r' || c = '\x0b' || c = '\x0c'

/-- Model of Python `str.strip()`: drop leading and trailing whitespace. -/
def pyStrip (s : Str) : Str :=
  ((s.dropWhile pySpace).reverse.dropWhile pySpace).reverse

/-- Split on each newline character; the pieces keep no newline. -/
def splitNL : Str → List Str
  | [] => [[]]
  | c :: cs =>
    if c = '\n' then [] :: splitNL cs
    else
      match splitNL cs with
      | [] => [[c]]
      | l :: ls => (c :: l) :: ls

/-- Model of Python `str.splitlines()` with newline as the separator:
split on each newline; a trailing newline yields no extra empty line,
and the empty string has no lines. -/
def pySplitlines (s : Str) : List Str :=
  let parts := splitNL s
  if parts.getLast? = some [] then parts.dropLast else parts

/-- Join lines back with newline (Python `"\n".join(lines)`). -/
def joinLines (ls : List Str) : Str :=
  List.intercalate ['\n'] ls

/-- Model of Python `s.startswith(p)`: `startsWith s p` holds when `p`
is an initial segment of `s`. -/
def startsWith : Str → Str → Bool
  | _, [] => true
  | [], _ :: _ => false
  | c :: cs, p :: ps => if c = p then startsWith cs ps else false

/-- The accepted opening-fence language tags of `extract_bash_block`:
empty, `bash`, `sh`, or `shell`, case-insensitive. -/
def langAccepted (lang : Str) : Bool :=
  lang = ([] : Str) || [str "bash", str "sh", str "shell"].contains (lang.map Char.toLower)

/-- The language tag read off an opening fence line in
`extract_bash_block`: `line.strip()[3:].strip()`. -/
def fenceLang (line : Str) : Str :=
  pyStrip ((pyStrip line).drop 3)

/-- The line-scanning loop of `extract_bash_block`: state is `inBlock`
(have we passed an opening fence), `langOk` (was its tag accepted) and
the accumulated lines; a second fence line breaks the loop. -/
def extractLoop : List Str → Bool → Bool → List Str → List Str
  | [], _, _, acc => acc
  | l :: rest, inBlock, langOk, acc =>
    if startsWith l (str "```") then
      if inBlock then
        acc
      else
        extractLoop rest true (langAccepted (fenceLang l)) acc
    else if inBlock && langOk then
      extractLoop rest inBlock langOk (acc ++ [l])
    else
      extractLoop rest inBlock langOk acc

/-- `extract_bash_block(text)` from cli.py: extract the first fenced
code block, keep its lines only when its language tag is accepted, join
with newline and strip. -/
def extract_bash_block (text : Str) : Str :=
  pyStrip (joinLines (extractLoop (pySplitlines text) false false []))

/-- Spec-side description of block extraction (written from the spec's
words, to be compared with `extract_bash_block`): locate the first line
starting a fence and read its tag together with the following lines up
to the next fence line of any kind; later blocks are never reached. -/
def extractSpecFirstBlock : List Str → Option (Str × List Str)
  | [] => none
  | l :: rest =>
    if startsWith l (str "```") then
      some (fenceLang l, rest.takeWhile (fun x => !(startsWith x (str "```"))))
    else
      extractSpecFirstBlock rest

/-- Spec-side extraction on whole response text: the first block's
content joined and trimmed when its tag is accepted, the empty string
when the tag is rejected or no block exists. -/
def extractSpec (text : Str) : Str :=
  match extractSpecFirstBlock (pySplitlines text) with
  | none => []
  | some (lang, content) =>
    if langAccepted lang then pyStrip (joinLines content) else []

/-- Whether a response text has no fenced block whose tag is accepted
before any other fence: its first fence (if any) carries a rejected
language tag. -/
def noAcceptedBlock (text : Str) : Bool :=
  match extractSpecFirstBlock (pySplitlines text) with
  | none => true
  | some (lang, _) => !(langAccepted lang)

/-- The per-line filter of `parse_commands`: strip the line, drop it
when empty, a `#` comment, or not a `git ` invocation, keep the stripped
form otherwise. -/
def parseLine (line : Str) : Option Str :=
  let l := pyStrip line
  if l = ([] : Str) then none
  else if startsWith l (str "#") then none
  else if !(startsWith l (str "git ")) then none
  else some l

/-- `parse_commands(cmd_block)` from cli.py: apply `parseLine` to each
line, keeping results in order. -/
def parse_commands (cmdBlock : Str) : List Str :=
  (pySplitlines cmdBlock).filterMap parseLine

/-- Terminal state of `run_commands`: returned normally with no
commands, returned after a dry run, executed everything, or called
`sys.exit(code)` after the first failing command. -/
inductive RunResult where
  | noCommands : RunResult
  | dryRun : RunResult
  | executed : RunResult
  | aborted : Int → RunResult
deriving DecidableEq, Repr

/-- Effect trace of `run_commands`: the commands actually handed to
`subprocess.run`, the printed lines (stdout and stderr in program
order), and the terminal state. -/
structure RunTrace where
  executedCmds : List Str
  out : List Str
  result : RunResult
deriving DecidableEq, Repr

/-- Decimal rendering of an exit code, for the failure message. -/
def intStr (i : Int) : Str := (toString i).toList

/-- The execution loop of `run_commands` in apply mode: `ex` is the
oracle giving each command's subprocess exit code; a non-zero code
raises `CalledProcessError`, answered by `sys.exit(code)`. -/
def execLoop (ex : Str → Int) : List Str → List Str → List Str → RunTrace
  | [], done, outAcc =>
    ⟨done, outAcc ++ [[], str "Commands executed.", []], .executed⟩
  | c :: rest, done, outAcc =>
    let code := ex c
    if code = 0 then
      execLoop ex rest (done ++ [c]) (outAcc ++ [str "> " ++ c])
    else
      ⟨done ++ [c],
       outAcc ++ [str "> " ++ c,
                  str "Command failed with exit code " ++ intStr code ++ str ". Aborting."],
       .aborted code⟩

/-- `run_commands(commands, apply)` from cli.py, with subprocess
execution modelled by the exit-code oracle `ex`. -/
def run_commands (ex : Str → Int) (commands : List Str) (apply : Bool) : RunTrace :=
  if commands = [] then
    ⟨[], [str "gitmeup: no git commands produced by the model."], .noCommands⟩
  else
    let header := [str "gitmeup proposed commands:", []] ++ commands ++ [[]]
    if !apply then
      ⟨[], header ++ [str "Dry run. Re-run with --apply to execute these commands."], .dryRun⟩
    else
      let t := execLoop ex commands [] []
      ⟨t.executedCmds, header ++ [str "Executing commands..."] ++ t.out, t.result⟩

/-- Result of one git subprocess call: return code, stdout, stderr. -/
structure GitOut where
  code : Int
  out : Str
  err : Str
deriving DecidableEq, Repr

/-- `run_git(args, check)` from cli.py over a git oracle: on `check`
with a non-zero return code it prints to stderr and exits with the
child's code (`Except.error`); otherwise it returns stdout. -/
def run_git (git : List Str → GitOut) (args : List Str) (check : Bool) :
    Except Int Str :=
  let proc := git args
  if check && proc.code ≠ 0 then .error proc.code else .ok proc.out

/-- The argument vector of the third context call: detailed diff with
binary-like extensions excluded. -/
def diffArgs : List Str :=
  [str "diff", str "--", str ".",
   str ":(exclude)*.png", str ":(exclude)*.jpg", str ":(exclude)*.jpeg",
   str ":(exclude)*.gif", str ":(exclude)*.svg", str ":(exclude)*.webp"]

/-- `build_user_prompt(diff_stat, status, diff)` from cli.py: the three
context blocks under their literal headers, with a placeholder when a
block is empty (Python falsy `or`). -/
def build_user_prompt (diffStat status diff : Str) : Str :=
  str "\nHere are the current git changes.\n\n=== git diff --stat ===\n"
    ++ (if diffStat = ([] : Str) then str "(no diff stat output)" else diffStat)
    ++ str "\n\n=== git status --short ===\n"
    ++ (if status = ([] : Str) then str "(no status output)" else status)
    ++ str "\n\n=== git diff (images excluded) ===\n"
    ++ (if diff = ([] : Str) then str "(no diff output)" else diff)
    ++ str "\n\nBased on this, generate atomic Conventional Commits and matching git add/rm/mv + git commit commands as instructed.\n"

/-- Python falsiness of `args.api_key`: absent or the empty string. -/
def keyMissing : Option Str → Bool
  | none => true
  | some s => s = ([] : Str)

/-- Effect trace of a whole `main` run: whether the model endpoint was
called, which parsed commands were handed to `subprocess.run`, the
printed lines, and `some code` for `sys.exit(code)` versus `none` for
falling off the end of `main` (process exit 0). -/
structure MainTrace where
  llmCalled : Bool
  executedCmds : List Str
  out : List Str
  exit : Option Int
deriving DecidableEq, Repr

/-- The process exit code a `MainTrace` stands for: an explicit
`sys.exit` code, or 0 when `main` returns normally. -/
def MainTrace.exitCode (t : MainTrace) : Int :=
  t.exit.getD 0

/-- The stderr line `run_git` prints before exiting on a checked
failure. -/
def gitErrLine (args : List Str) (err : Str) : Str :=
  str "Error running git " ++ List.intercalate (str " ") args ++ str ":\n" ++ err

/-- The argument vector of the repository check. -/
def revParseArgs : List Str := [str "rev-parse", str "--is-inside-work-tree"]

/-- The argument vector of the porcelain status check. -/
def porcelainArgs : List Str := [str "status", str "--porcelain"]

/-- The argument vector of the stat summary. -/
def diffStatArgs : List Str := [str "diff", str "--stat"]

/-- The argument vector of the short status listing. -/
def statusShortArgs : List Str := [str "status", str "--short"]

/-- The argument vector of the final best-effort status display. -/
def statusSbArgs : List Str := [str "status", str "-sb"]

/-- `main` from cli.py (after argparse), over oracles: `apiKey` is the
resolved credential, `git` answers git subprocess calls, `llm` answers
the model request given the user prompt, `ex` gives exit codes of the
generated commands, `apply` is the `--apply` flag. -/
def mainRun (apiKey : Option Str) (git : List Str → GitOut)
    (llm : Str → Str) (ex : Str → Int) (apply : Bool) : MainTrace :=
  if keyMissing apiKey then
    ⟨false, [], [str "Missing OpenAI API key. Set OPENAI_API_KEY or use --api-key."], some 1⟩
  else
    let rev := git revParseArgs
    if rev.code ≠ 0 then
      ⟨false, [], [gitErrLine revParseArgs rev.err], some rev.code⟩
    else if pyStrip rev.out ≠ str "true" then
      ⟨false, [], [str "gitmeup must be run inside a git repository."], some 1⟩
    else
      let porc := git porcelainArgs
      if porc.code ≠ 0 then
        ⟨false, [], [gitErrLine porcelainArgs porc.err], some porc.code⟩
      else if pyStrip porc.out = ([] : Str) then
        ⟨false, [], [str "Working tree clean. Nothing to commit."], some 0⟩
      else
        let ds := git diffStatArgs
        if ds.code ≠ 0 then
          ⟨false, [], [gitErrLine diffStatArgs ds.err], some ds.code⟩
        else
          let st := git statusShortArgs
          if st.code ≠ 0 then
            ⟨false, [], [gitErrLine statusShortArgs st.err], some st.code⟩
          else
            let df := git diffArgs
            if df.code ≠ 0 then
              ⟨false, [], [gitErrLine diffArgs df.err], some df.code⟩
            else
              let rawOutput := llm (build_user_prompt ds.out st.out df.out)
              let bashBlock := extract_bash_block rawOutput
              if bashBlock = ([] : Str) then
                ⟨true, [],
                 [str "gitmeup: failed to extract bash command block from model output.",
                  str "Raw output:\n " ++ rawOutput], some 1⟩
              else
                let commands := parse_commands bashBlock
                let rt := run_commands ex commands apply
                match rt.result with
                | .aborted code => ⟨true, rt.executedCmds, rt.out, some code⟩
                | _ =>
                  let fin := git statusSbArgs
                  ⟨true, rt.executedCmds,
                   rt.out ++ [[], str "Final git status:", [], fin.out,
                              str "Review your history with:",
                              str "  git log --oneline --graph --decorate -n 10"],
                   none⟩

/-- Spec-side keep condition of the Command Parser, on a stripped line. -/
def keepCmd (c : Str) : Bool :=
  decide (c ≠ ([] : Str)) && !(startsWith c (str "#")) && startsWith c (str "git ")

/-! ### Concrete environments used to instantiate the theorems -/

/-- A git oracle for a dirty working tree inside a repository. -/
def gitEnvOk : List Str → GitOut := fun args =>
  if args = revParseArgs then ⟨0, str "true\n", []⟩
  else if args = porcelainArgs then ⟨0, str " M a.txt\n", []⟩
  else if args = statusSbArgs then ⟨0, str "## main a\n", []⟩
  else ⟨0, str "ctx", []⟩

/-- A git oracle for a clean working tree inside a repository. -/
def gitEnvClean : List Str → GitOut := fun args =>
  if args = porcelainArgs then ⟨0, str "\n", []⟩ else gitEnvOk args

/-- A git oracle for a directory that is not a git repository: the
repository check itself fails with git's own exit code 128. -/
def gitEnvNoRepo : List Str → GitOut := fun args =>
  if args = revParseArgs then
    ⟨128, [], str "fatal: not a git repository (or any of the parent directories): .git\n"⟩
  else gitEnvOk args

/-- A well-formed model response: one bash-tagged block of two git
commands. -/
def rawGood : Str := str "```bash\ngit add a.txt\ngit commit -m \"feat: add a\"\n```"

/-- A model response whose first fenced block has a rejected tag; the
later bash block is never reached. -/
def rawWrongLang : Str := str "```python\nx = 1\n```\n```bash\ngit add y\n```"

/-- A model response whose bash block holds only a comment line. -/
def rawComments : Str := str "```bash\n# nothing to do\n```"

/-- A model response whose bash block is never closed by a second
fence. -/
def rawUnclosed : Str := str "```bash\ngit add x\ngit commit -m \"x\""

/-- A subprocess oracle under which the second generated command exits
with code 3. -/
def exFailSecond : Str → Int := fun c =>
  if c = str "git commit -m \"feat: add a\"" then 3 else 0

/-! ### Block extraction -/

theorem extractLoop_inBlock_notOk (rest : List Str) (acc : List Str) :
    extractLoop rest true false acc = acc := by
  induction rest generalizing acc with
  | nil => rfl
  | cons l rest ih =>
    by_cases h : startsWith l (str "```") = true
    · simp [extractLoop, h]
    · simp [extractLoop, h, ih]

theorem extractLoop_inBlock_ok (rest : List Str) (acc : List Str) :
    extractLoop rest true true acc =
      acc ++ rest.takeWhile (fun x => !(startsWith x (str "```"))) := by
  induction rest generalizing acc with
  | nil => simp [extractLoop]
  | cons l rest ih =>
    by_cases h : startsWith l (str "```") = true
    · simp [extractLoop, h, List.takeWhile_cons]
    · simp [extractLoop, h, ih, List.takeWhile_cons]

theorem extractLoop_eq_spec (ls : List Str) :
    extractLoop ls false false [] =
      (match extractSpecFirstBlock ls with
       | none => []
       | some (lang, content) => if langAccepted lang then content else []) := by
  induction ls with
  | nil => rfl
  | cons l rest ih =>
    by_cases h : startsWith l (str "```") = true
    · cases ha : langAccepted (fenceLang l)
      · simp [extractLoop, extractSpecFirstBlock, h, ha, extractLoop_inBlock_notOk]
      · simp [extractLoop, extractSpecFirstBlock, h, ha, extractLoop_inBlock_ok]
    · simp [extractLoop, extractSpecFirstBlock, h, ih]

theorem extract_eq_extractSpec (text : Str) :
    extract_bash_block text = extractSpec text := by
  unfold extract_bash_block extractSpec
  rw [extractLoop_eq_spec]
  cases hfb : extractSpecFirstBlock (pySplitlines text) with
  | none => rfl
  | some p =>
    obtain ⟨lang, content⟩ := p
    cases ha : langAccepted lang <;> simp [ha]
    rfl

theorem noAcceptedBlock_extract (text : Str) (h : noAcceptedBlock text = true) :
    extract_bash_block text = [] := by
  rw [extract_eq_extractSpec]
  unfold extractSpec
  unfold noAcceptedBlock at h
  cases hfb : extractSpecFirstBlock (pySplitlines text) with
  | none => rfl
  | some p =>
    obtain ⟨lang, content⟩ := p
    rw [hfb] at h
    simp at h
    simp [h]

/-! ### Command parsing -/

theorem filterMap_parseLine_eq_filter (ls : List Str) :
    ls.filterMap parseLine = (ls.map pyStrip).filter keepCmd := by
  induction ls with
  | nil => rfl
  | cons l ls ih =>
    simp only [List.filterMap_cons, List.map_cons, List.filter_cons]
    by_cases h1 : pyStrip l = ([] : Str)
    · simp [parseLine, keepCmd, h1, ih]
    · by_cases h2 : startsWith (pyStrip l) (str "#") = true
      · simp [parseLine, keepCmd, h1, h2, ih]
      · by_cases h3 : startsWith (pyStrip l) (str "git ") = true
        · simp [parseLine, keepCmd, h1, h2, h3, ih]
        · simp [parseLine, keepCmd, h1, h2, h3, ih]

theorem startsWith_git_ne_nil {l : Str} (h : startsWith l (str "git ") = true) :
    l ≠ [] := by
  intro hl
  subst hl
  exact absurd h (by decide)

theorem startsWith_git_not_hash {l : Str} (h : startsWith l (str "git ") = true) :
    startsWith l (str "#") = false := by
  cases l with
  | nil => exact absurd h (by decide)
  | cons c cs =>
    rw [show str "git " = 'g' :: str "it " from rfl] at h
    rw [show str "#" = ['#'] from rfl]
    unfold startsWith at h ⊢
    by_cases hc : c = 'g'
    · subst hc
      simp
    · simp [hc] at h

theorem parseLine_keep {l : Str} (h1 : pyStrip l = l)
    (h2 : startsWith l (str "git ") = true) : parseLine l = some l := by
  have hne := startsWith_git_ne_nil h2
  have hh := startsWith_git_not_hash h2
  simp [parseLine, h1, hne, hh, h2]

theorem filterMap_parseLine_wellformed (ls : List Str)
    (h : ∀ l ∈ ls, pyStrip l = l ∧ startsWith l (str "git ") = true) :
    ls.filterMap parseLine = ls := by
  induction ls with
  | nil => rfl
  | cons l ls ih =>
    obtain ⟨h1, h2⟩ := h l (by simp)
    rw [List.filterMap_cons, parseLine_keep h1 h2, ih (fun x hx => h x (by simp [hx]))]

theorem parseLine_some_startsWith {line c : Str} (h : parseLine line = some c) :
    startsWith c (str "git ") = true := by
  unfold parseLine at h
  by_cases h1 : pyStrip line = ([] : Str)
  · simp [h1] at h
  · by_cases h3 : startsWith (pyStrip line) (str "git ") = true
    · by_cases h2 : startsWith (pyStrip line) (str "#") = true
      · simp [h1, h2] at h
      · simp [h1, h2, h3] at h
        rw [← h]
        exact h3
    · simp [h1, h3] at h

theorem extractSpecFirstBlock_append (pre : List Str) (fline : Str) (rest : List Str)
    (hpre : ∀ l ∈ pre, startsWith l (str "```") = false)
    (hf : startsWith fline (str "```") = true) :
    extractSpecFirstBlock (pre ++ fline :: rest) =
      some (fenceLang fline, rest.takeWhile (fun x => !(startsWith x (str "```")))) := by
  induction pre with
  | nil => simp [extractSpecFirstBlock, hf]
  | cons l pre ih =>
    have hl := hpre l (by simp)
    simp [extractSpecFirstBlock, hl, ih (fun x hx => hpre x (by simp [hx]))]


/-! ### Command execution and the main pipeline -/

theorem execLoop_fail_fast (ex : Str → Int) (cmds : List Str) :
    ∀ (k : Nat), k < cmds.length →
    (∀ i, i < k → ex (cmds.getD i []) = 0) →
    ex (cmds.getD k []) ≠ 0 →
    ∀ done outAcc,
      (execLoop ex cmds done outAcc).executedCmds = done ++ cmds.take (k + 1) ∧
      (execLoop ex cmds done outAcc).result = .aborted (ex (cmds.getD k [])) := by
  induction cmds with
  | nil => intro k hk; simp at hk
  | cons c rest ih =>
    intro k hk hpre hfail done outAcc
    cases k with
    | zero =>
      have hc : ex c ≠ 0 := by simpa using hfail
      simp [execLoop, hc]
    | succ k =>
      have hc : ex c = 0 := by simpa using hpre 0 (Nat.succ_pos k)
      have hrec := ih k (by simpa using hk)
        (fun i hi => by simpa using hpre (i + 1) (by omega))
        (by simpa using hfail) (done ++ [c]) (outAcc ++ [str "> " ++ c])
      simpa [execLoop, hc] using hrec

theorem run_commands_not_apply (ex : Str → Int) (cmds : List Str) :
    run_commands ex cmds false =
      (if cmds = [] then
        ⟨[], [str "gitmeup: no git commands produced by the model."], .noCommands⟩
       else
        ⟨[], [str "gitmeup proposed commands:", []] ++ cmds
               ++ [[], str "Dry run. Re-run with --apply to execute these commands."],
         .dryRun⟩) := by
  unfold run_commands
  by_cases h : cmds = [] <;> simp [h]

theorem run_commands_fail_fast (ex : Str → Int) (cmds : List Str) (k : Nat)
    (hk : k < cmds.length)
    (hpre : ∀ i, i < k → ex (cmds.getD i []) = 0)
    (hfail : ex (cmds.getD k []) ≠ 0) :
    (run_commands ex cmds true).executedCmds = cmds.take (k + 1) ∧
    (run_commands ex cmds true).result = .aborted (ex (cmds.getD k [])) := by
  have hne : cmds ≠ [] := by
    intro h
    subst h
    simp at hk
  have := execLoop_fail_fast ex cmds k hk hpre hfail [] []
  unfold run_commands
  simp [hne]
  simpa using this


theorem mainRun_model (apiKey : Option Str) (git : List Str → GitOut)
    (llm : Str → Str) (ex : Str → Int) (apply : Bool) (raw : Str)
    (hkey : keyMissing apiKey = false)
    (hrev : (git revParseArgs).code = 0)
    (hrevOut : pyStrip (git revParseArgs).out = str "true")
    (hporc : (git porcelainArgs).code = 0)
    (hporcOut : pyStrip (git porcelainArgs).out ≠ ([] : Str))
    (hds : (git diffStatArgs).code = 0)
    (hst : (git statusShortArgs).code = 0)
    (hdf : (git diffArgs).code = 0)
    (hllm : ∀ p, llm p = raw) :
    mainRun apiKey git llm ex apply =
      (if extract_bash_block raw = ([] : Str) then
        ⟨true, [],
         [str "gitmeup: failed to extract bash command block from model output.",
          str "Raw output:\n " ++ raw], some 1⟩
       else
        let rt := run_commands ex (parse_commands (extract_bash_block raw)) apply
        match rt.result with
        | .aborted code => ⟨true, rt.executedCmds, rt.out, some code⟩
        | _ =>
          ⟨true, rt.executedCmds,
           rt.out ++ [[], str "Final git status:", [], (git statusSbArgs).out,
                      str "Review your history with:",
                      str "  git log --oneline --graph --decorate -n 10"],
           none⟩) := by
  unfold mainRun
  simp [hkey, hrev, hrevOut, hporc, hporcOut, hds, hst, hdf, hllm]


/-! ### The claims -/

/-- Claim C1: for every response text, block extraction scans line by
line for fence markers starting a line and returns the inner text of
the first fenced block (lines joined with newline, surrounding
whitespace trimmed) exactly when its opening-fence tag is empty,
`bash`, `sh` or `shell` (case-insensitive); accumulation stops at the
next fence of any kind, later blocks are ignored, and a first block
with a rejected tag contributes no content — stated as equality with
the spec-side extractor `extractSpec`. -/
theorem extraction_matches_spec (text : Str) :
    extract_bash_block text = extractSpec text :=
  extract_eq_extractSpec text

/-- Claim C2: command parsing keeps exactly the lines that are
non-blank after trimming, are no `#` comment and start with `git `
(first conjunct); a block consisting only of such lines parses to
exactly those lines in order (second conjunct); and the two-command
example block parses to exactly its two commands in order (third
conjunct). -/
theorem parse_commands_correct :
    (∀ block, parse_commands block = ((pySplitlines block).map pyStrip).filter keepCmd) ∧
    (∀ block,
      (∀ l ∈ pySplitlines block, pyStrip l = l ∧ startsWith l (str "git ") = true) →
      parse_commands block = pySplitlines block) ∧
    parse_commands (str "git add a.txt\ngit commit -m \"feat: add a\"") =
      [str "git add a.txt", str "git commit -m \"feat: add a\""] := by
  refine ⟨fun block => ?_, fun block h => ?_, by decide⟩
  · exact filterMap_parseLine_eq_filter _
  · exact filterMap_parseLine_wellformed _ h

/-- Witness for C2 at a concrete two-line block of well-formed git
commands. -/
theorem parse_commands_correct_witness :
    (∀ l ∈ pySplitlines (str "git add a.txt\ngit status"),
      pyStrip l = l ∧ startsWith l (str "git ") = true) ∧
    parse_commands (str "git add a.txt\ngit status") =
      pySplitlines (str "git add a.txt\ngit status") :=
  ⟨by decide, parse_commands_correct.2.1 _ (by decide)⟩

/-- Claim C3: in apply mode, if the command at position `k` (0-based)
is the first to exit non-zero, then exactly the commands up to and
including it were handed to the subprocess layer in parse order, the
executor terminates with that command's exit code, and under any run
reaching execution the whole process exits with that code, with no
rollback of the earlier commands. -/
theorem apply_mode_fail_fast (ex : Str → Int) (cmds : List Str) (k : Nat)
    (hk : k < cmds.length)
    (hpre : ∀ i, i < k → ex (cmds.getD i []) = 0)
    (hfail : ex (cmds.getD k []) ≠ 0) :
    (run_commands ex cmds true).executedCmds = cmds.take (k + 1) ∧
    (run_commands ex cmds true).result = .aborted (ex (cmds.getD k [])) ∧
    (∀ (apiKey : Option Str) (git : List Str → GitOut) (llm : Str → Str) (raw : Str),
      keyMissing apiKey = false →
      (git revParseArgs).code = 0 →
      pyStrip (git revParseArgs).out = str "true" →
      (git porcelainArgs).code = 0 →
      pyStrip (git porcelainArgs).out ≠ ([] : Str) →
      (git diffStatArgs).code = 0 →
      (git statusShortArgs).code = 0 →
      (git diffArgs).code = 0 →
      (∀ p, llm p = raw) →
      parse_commands (extract_bash_block raw) = cmds →
      (mainRun apiKey git llm ex true).exit = some (ex (cmds.getD k [])) ∧
      (mainRun apiKey git llm ex true).executedCmds = cmds.take (k + 1)) := by
  obtain ⟨hexec, hres⟩ := run_commands_fail_fast ex cmds k hk hpre hfail
  refine ⟨hexec, hres, ?_⟩
  intro apiKey git llm raw hkey h1 h2 h3 h4 h5 h6 h7 hllm hcmds
  have hbe : extract_bash_block raw ≠ ([] : Str) := by
    intro h
    rw [h] at hcmds
    have : cmds = [] := by rw [← hcmds]; rfl
    subst this
    simp at hk
  rw [mainRun_model apiKey git llm ex true raw hkey h1 h2 h3 h4 h5 h6 h7 hllm]
  simp only [hbe, if_neg, hcmds, hres]
  constructor <;> simp [hexec]

/-- Witness for C3: a run whose second command fails with exit code 3
attempts exactly the first two commands and exits with code 3. -/
theorem apply_mode_fail_fast_witness :
    (mainRun (some (str "key")) gitEnvOk (fun _ => rawGood) exFailSecond true).exit = some 3 ∧
    (mainRun (some (str "key")) gitEnvOk (fun _ => rawGood) exFailSecond true).executedCmds =
      [str "git add a.txt", str "git commit -m \"feat: add a\""] := by
  have h := (apply_mode_fail_fast exFailSecond
      [str "git add a.txt", str "git commit -m \"feat: add a\""] 1
      (by decide) (by decide) (by decide)).2.2
      (some (str "key")) gitEnvOk (fun _ => rawGood) rawGood
      (by decide) (by decide) (by decide) (by decide) (by decide) (by decide) (by decide)
      (by decide) (fun _ => rfl) (by decide)
  refine ⟨?_, ?_⟩
  · rw [h.1]
    decide
  · rw [h.2]
    decide

/-- Claim C4: with the apply flag false, the Command Executor hands no
command to the subprocess layer: it prints either the no-commands
notice or the command list with the dry-run notice and returns; in any
whole run without the apply flag, no parsed command is executed. -/
theorem dry_run_never_executes (ex : Str → Int) (cmds : List Str) :
    (run_commands ex cmds false).executedCmds = [] ∧
    ((run_commands ex cmds false).result = .noCommands ∨
      (run_commands ex cmds false).result = .dryRun) ∧
    (run_commands ex cmds false).out =
      (if cmds = [] then [str "gitmeup: no git commands produced by the model."]
       else [str "gitmeup proposed commands:", []] ++ cmds
              ++ [[], str "Dry run. Re-run with --apply to execute these commands."]) ∧
    (∀ (apiKey : Option Str) (git : List Str → GitOut) (llm : Str → Str),
      (mainRun apiKey git llm ex false).executedCmds = []) := by
  refine ⟨?_, ?_, ?_, ?_⟩
  · rw [run_commands_not_apply]
    by_cases h : cmds = [] <;> simp [h]
  · rw [run_commands_not_apply]
    by_cases h : cmds = [] <;> simp [h]
  · rw [run_commands_not_apply]
    by_cases h : cmds = [] <;> simp [h]
  · intro apiKey git llm
    unfold mainRun
    lift_lets
    intro rev porc ds st df rawOutput bashBlock commands rt fin
    have hrt : rt = run_commands ex commands false := rfl
    split
    · rfl
    split
    · rfl
    split
    · rfl
    split
    · rfl
    split
    · rfl
    split
    · rfl
    split
    · rfl
    split
    · rfl
    split
    · rfl
    split
    · rw [hrt, run_commands_not_apply]
      split <;> rfl
    · rw [hrt, run_commands_not_apply]
      split <;> rfl

/-- Claim C5: when the working tree is clean (the porcelain status
output is empty after trimming), the run makes no model request and
exits with code 0. -/
theorem clean_tree_no_model_request (apiKey : Option Str) (git : List Str → GitOut)
    (llm : Str → Str) (ex : Str → Int) (apply : Bool)
    (hkey : keyMissing apiKey = false)
    (hrev : (git revParseArgs).code = 0)
    (hrevOut : pyStrip (git revParseArgs).out = str "true")
    (hporc : (git porcelainArgs).code = 0)
    (hclean : pyStrip (git porcelainArgs).out = ([] : Str)) :
    (mainRun apiKey git llm ex apply).llmCalled = false ∧
    (mainRun apiKey git llm ex apply).exit = some 0 ∧
    (mainRun apiKey git llm ex apply).executedCmds = [] := by
  unfold mainRun
  simp [hkey, hrev, hrevOut, hporc, hclean]

/-- Witness for C5 at the concrete clean-tree environment. -/
theorem clean_tree_no_model_request_witness :
    (mainRun (some (str "key")) gitEnvClean (fun _ => rawGood) (fun _ => 0) true).llmCalled = false ∧
    (mainRun (some (str "key")) gitEnvClean (fun _ => rawGood) (fun _ => 0) true).exit = some 0 ∧
    (mainRun (some (str "key")) gitEnvClean (fun _ => rawGood) (fun _ => 0) true).executedCmds = [] :=
  clean_tree_no_model_request _ _ _ _ _ (by decide) (by decide) (by decide) (by decide) (by decide)

/-- Claim C6: when the model response has no fenced block with an
accepted language tag before its first fence, extraction yields the
empty string and the run prints the failure notice, echoes the raw
response, and exits with code 1. -/
theorem no_accepted_block_fatal (apiKey : Option Str) (git : List Str → GitOut)
    (llm : Str → Str) (ex : Str → Int) (apply : Bool) (raw : Str)
    (hkey : keyMissing apiKey = false)
    (hrev : (git revParseArgs).code = 0)
    (hrevOut : pyStrip (git revParseArgs).out = str "true")
    (hporc : (git porcelainArgs).code = 0)
    (hporcOut : pyStrip (git porcelainArgs).out ≠ ([] : Str))
    (hds : (git diffStatArgs).code = 0)
    (hst : (git statusShortArgs).code = 0)
    (hdf : (git diffArgs).code = 0)
    (hllm : ∀ p, llm p = raw)
    (hraw : noAcceptedBlock raw = true) :
    extract_bash_block raw = ([] : Str) ∧
    (mainRun apiKey git llm ex apply).exit = some 1 ∧
    (mainRun apiKey git llm ex apply).out =
      [str "gitmeup: failed to extract bash command block from model output.",
       str "Raw output:\n " ++ raw] := by
  have hbe := noAcceptedBlock_extract raw hraw
  rw [mainRun_model apiKey git llm ex apply raw hkey hrev hrevOut hporc hporcOut hds hst hdf hllm]
  simp [hbe]

/-- Witness for C6: a response whose first block is python-tagged is
fatal even though a bash block follows it. -/
theorem no_accepted_block_fatal_witness :
    extract_bash_block rawWrongLang = ([] : Str) ∧
    (mainRun (some (str "key")) gitEnvOk (fun _ => rawWrongLang) (fun _ => 0) true).exit = some 1 ∧
    (mainRun (some (str "key")) gitEnvOk (fun _ => rawWrongLang) (fun _ => 0) true).out =
      [str "gitmeup: failed to extract bash command block from model output.",
       str "Raw output:\n " ++ rawWrongLang] :=
  no_accepted_block_fatal (some (str "key")) gitEnvOk (fun _ => rawWrongLang) (fun _ => 0) true
    rawWrongLang (by decide) (by decide) (by decide) (by decide) (by decide) (by decide)
    (by decide) (by decide) (fun _ => rfl) (by decide)

/-- Counterexample to C7 as stated: outside a repository git answers
the check with its own exit code 128 and non-empty stderr, and the run
exits with 128, not with 1. -/
theorem repo_check_exit_one_cex :
    (mainRun (some (str "key")) gitEnvNoRepo (fun _ => rawGood) (fun _ => 0) false).exit = some 128 ∧
    (mainRun (some (str "key")) gitEnvNoRepo (fun _ => rawGood) (fun _ => 0) false).exit ≠ some 1 := by
  constructor <;> decide

/-- Claim C7 as amended: whenever the repository check does not report
being inside a work tree, the run fails fatally with a non-zero exit
code — code 1 when the check command itself succeeded (it printed
something other than `true`), and the check command's own exit code
when it failed; no model request is made and nothing is executed. -/
theorem repo_check_failure_nonzero (apiKey : Option Str) (git : List Str → GitOut)
    (llm : Str → Str) (ex : Str → Int) (apply : Bool)
    (hkey : keyMissing apiKey = false)
    (hfail : ¬((git revParseArgs).code = 0 ∧ pyStrip (git revParseArgs).out = str "true")) :
    (mainRun apiKey git llm ex apply).exit =
      some (if (git revParseArgs).code = 0 then 1 else (git revParseArgs).code) ∧
    (mainRun apiKey git llm ex apply).exitCode ≠ 0 ∧
    (mainRun apiKey git llm ex apply).llmCalled = false ∧
    (mainRun apiKey git llm ex apply).executedCmds = [] := by
  unfold mainRun
  by_cases hc : (git revParseArgs).code = 0
  · have hout : pyStrip (git revParseArgs).out ≠ str "true" := fun h => hfail ⟨hc, h⟩
    simp [hkey, hc, hout, MainTrace.exitCode]
  · simp [hkey, hc, MainTrace.exitCode]

/-- Witness for the amended C7 at the not-a-repository environment. -/
theorem repo_check_failure_nonzero_witness :
    (mainRun (some (str "key")) gitEnvNoRepo (fun _ => rawGood) (fun _ => 0) false).exit =
      some (if (gitEnvNoRepo revParseArgs).code = 0 then 1 else (gitEnvNoRepo revParseArgs).code) ∧
    (mainRun (some (str "key")) gitEnvNoRepo (fun _ => rawGood) (fun _ => 0) false).exitCode ≠ 0 ∧
    (mainRun (some (str "key")) gitEnvNoRepo (fun _ => rawGood) (fun _ => 0) false).llmCalled = false ∧
    (mainRun (some (str "key")) gitEnvNoRepo (fun _ => rawGood) (fun _ => 0) false).executedCmds = [] :=
  repo_check_failure_nonzero (some (str "key")) gitEnvNoRepo (fun _ => rawGood) (fun _ => 0) false
    (by decide) (by decide)

/-- Claim C8: every string produced by the Command Parser begins with
the invocation prefix `git ` (the program name followed by a space). -/
theorem parsed_commands_git_invariant (block : Str) (c : Str)
    (h : c ∈ parse_commands block) : startsWith c (str "git ") = true := by
  unfold parse_commands at h
  rw [List.mem_filterMap] at h
  obtain ⟨l, _, hl⟩ := h
  exact parseLine_some_startsWith hl

/-- Witness for C8 at a concrete block with one git and one non-git
line. -/
theorem parsed_commands_git_invariant_witness :
    startsWith (str "git add a.txt") (str "git ") = true :=
  parsed_commands_git_invariant (str "git add a.txt\nls -la") _ (by decide)

/-- Claim C9: in a run where extraction succeeds but parsing yields no
commands, the executor reports "no commands produced" and `main`
returns normally (process exit 0, nothing executed), whereas an empty
extracted block itself is fatal with exit 1. -/
theorem empty_command_list_asymmetry (apiKey : Option Str) (git : List Str → GitOut)
    (llm : Str → Str) (ex : Str → Int) (apply : Bool) (raw : Str)
    (hkey : keyMissing apiKey = false)
    (hrev : (git revParseArgs).code = 0)
    (hrevOut : pyStrip (git revParseArgs).out = str "true")
    (hporc : (git porcelainArgs).code = 0)
    (hporcOut : pyStrip (git porcelainArgs).out ≠ ([] : Str))
    (hds : (git diffStatArgs).code = 0)
    (hst : (git statusShortArgs).code = 0)
    (hdf : (git diffArgs).code = 0)
    (hllm : ∀ p, llm p = raw) :
    ((extract_bash_block raw ≠ ([] : Str) ∧ parse_commands (extract_bash_block raw) = []) →
      (str "gitmeup: no git commands produced by the model.") ∈ (mainRun apiKey git llm ex apply).out ∧
      (mainRun apiKey git llm ex apply).exit = none ∧
      (mainRun apiKey git llm ex apply).exitCode = 0 ∧
      (mainRun apiKey git llm ex apply).executedCmds = []) ∧
    (extract_bash_block raw = ([] : Str) → (mainRun apiKey git llm ex apply).exit = some 1) := by
  rw [mainRun_model apiKey git llm ex apply raw hkey hrev hrevOut hporc hporcOut hds hst hdf hllm]
  constructor
  · rintro ⟨hne, hempty⟩
    simp [hne, hempty, run_commands, MainTrace.exitCode]
  · intro he
    simp [he]

/-- Witness for C9: a bash block holding only a comment line yields a
soft no-op exit 0. -/
theorem empty_command_list_asymmetry_witness :
    (extract_bash_block rawComments ≠ ([] : Str) ∧
      parse_commands (extract_bash_block rawComments) = []) ∧
    (str "gitmeup: no git commands produced by the model.") ∈
      (mainRun (some (str "key")) gitEnvOk (fun _ => rawComments) (fun _ => 0) true).out ∧
    (mainRun (some (str "key")) gitEnvOk (fun _ => rawComments) (fun _ => 0) true).exit = none ∧
    (mainRun (some (str "key")) gitEnvOk (fun _ => rawComments) (fun _ => 0) true).exitCode = 0 ∧
    (mainRun (some (str "key")) gitEnvOk (fun _ => rawComments) (fun _ => 0) true).executedCmds = [] :=
  ⟨⟨by decide, by decide⟩,
   (empty_command_list_asymmetry (some (str "key")) gitEnvOk (fun _ => rawComments) (fun _ => 0) true
     rawComments (by decide) (by decide) (by decide) (by decide) (by decide) (by decide)
     (by decide) (by decide) (fun _ => rfl)).1 ⟨by decide, by decide⟩⟩

/-- Claim C10 (implicit): when the first fence line opens a block with
an accepted tag and no later line is a fence, extraction returns all
lines after the opening fence, joined with newline and trimmed — no
closing fence is required. -/
theorem unclosed_fence_keeps_tail (text : Str) (pre : List Str) (fline : Str) (rest : List Str)
    (hsplit : pySplitlines text = pre ++ fline :: rest)
    (hpre : ∀ l ∈ pre, startsWith l (str "```") = false)
    (hf : startsWith fline (str "```") = true)
    (hlang : langAccepted (fenceLang fline) = true)
    (hrest : ∀ l ∈ rest, startsWith l (str "```") = false) :
    extract_bash_block text = pyStrip (joinLines rest) := by
  rw [extract_eq_extractSpec]
  unfold extractSpec
  rw [hsplit, extractSpecFirstBlock_append pre fline rest hpre hf]
  have htw : rest.takeWhile (fun x => !(startsWith x (str "```"))) = rest :=
    List.takeWhile_eq_self_iff.mpr (fun x hx => by simp [hrest x hx])
  simp [hlang, htw]

/-- Witness for C10 at a concrete unclosed bash block. -/
theorem unclosed_fence_keeps_tail_witness :
    extract_bash_block rawUnclosed =
      pyStrip (joinLines [str "git add x", str "git commit -m \"x\""]) :=
  unclosed_fence_keeps_tail rawUnclosed [] (str "```bash")
    [str "git add x", str "git commit -m \"x\""]
    (by decide) (by decide) (by decide) (by decide) (by decide)

end Gitmeup
